import Mathlib

/-!
Verification development for the ERABU move-quote intake client
(`frontend/src/App.jsx`) and the spec-level core components whose backend
implementation is not included in the sources (Item Recognition Merge Engine,
Phase Controller, Address Verification Sub-flow).  Frontend handlers are
embedded as pure state-transition functions over an `AppState` record that
mirrors the React component's state and refs; WebSocket sends and HTTP calls
become explicit output lists.
-/

set_option maxRecDepth 4096

/-- The two address roles used by the client (`address_type` values). -/
inductive AddressRole where
  | fromAddr
  | toAddr
deriving Repr, DecidableEq

/-- An item as handled by the frontend item lists
(fields `id`, `name`, `name_ja`, `category`, `count`, `note`). -/
structure Item where
  id : Nat
  name : String
  nameJa : String
  category : String
  count : Nat
  note : String
deriving Repr, DecidableEq

/-- One chat message object in the `messages` array.  `msgType` is the
`type` marker (`""` for plain bubbles, `"items_card"`,
`"address_confirm_card"`, `"address_selection_card"`). -/
structure ChatMsg where
  role : String
  msgType : String
  content : String
  addressRole : Option AddressRole
  confirmed : Bool
  streaming : Bool
deriving Repr, DecidableEq

/-- A field record inside `fields_status` (the shape the client reads:
`status` and `needs_confirmation`). -/
structure FieldRecord where
  status : String
  needsConfirmation : Bool
  value : String
deriving Repr, DecidableEq

/-- `fields_status` as an association list keyed by field key. -/
def FieldsStatus := List (String × FieldRecord)
deriving DecidableEq

/-- The client reads `fieldsStatus[k]?.status || 'not_collected'`. -/
def statusOf (fs : FieldsStatus) (k : String) : String :=
  match List.lookup k fs with
  | some r => r.status
  | none => "not_collected"

/-- The `completion` object pushed by the server
(`{completion_rate, can_submit}`). -/
structure Completion where
  completionRate : ℚ
  canSubmit : Bool
deriving Repr, DecidableEq

/-- An address candidate as carried in `ui_component.data.candidates`
and in `address_selected` payloads. -/
structure AddressCandidate where
  formattedAddress : String
  postalCode : String
  prefecture : String
  city : String
  district : String
deriving Repr, DecidableEq

/-- Messages the client sends over the WebSocket. -/
inductive ClientOut where
  | chatMessage (content : String)
  | addressSelected (role : AddressRole) (address : AddressCandidate)
  | addressConfirmed (role : AddressRole) (confirmed : Bool)
  | imageUploaded (imageId : String) (items : List Item)
  | itemsConfirmed (items : List Item)
  | resetSession
deriving Repr, DecidableEq

/-- The React component's state and refs, as one record.
`wsPresent` models `wsRef.current` being non-null, `addedFrom`/`addedTo`
model `addedAddressCardsRef.current`, `lastOptions` models
`lastOptionsRef.current`, `textQueue`/`isTyping` model the typing queue refs. -/
structure AppState where
  messages : List ChatMsg
  inputValue : String
  wsPresent : Bool
  isConnected : Bool
  isLoading : Bool
  currentPhase : Nat
  fieldsStatus : FieldsStatus
  quickOptions : List String
  uiComponent : String
  completion : Completion
  pendingItems : List Item
  confirmedItems : List Item
  isRecognizing : Bool
  recognitionStep : Nat
  itemsJustConfirmed : Bool
  isVerifyingAddress : Bool
  textQueue : List Char
  isTyping : Bool
  lastOptions : List String
  addedFrom : Bool
  addedTo : Bool
  selectedOptions : List String
  sessionToken : String
deriving DecidableEq

/-- `addedAddressCardsRef.current[addressType]`. -/
def AppState.added (s : AppState) : AddressRole → Bool
  | .fromAddr => s.addedFrom
  | .toAddr => s.addedTo

/-- `resetState` from App.jsx: clears messages, phase, field statuses, item
lists, quick options, ui component, multi-select state, typing queue and the
added-address-card markers.  (It does not touch `completion`, `lastOptions`,
`inputValue`, `isLoading` or `isVerifyingAddress`.) -/
def resetState (s : AppState) : AppState :=
  { s with
    messages := []
    currentPhase := 0
    fieldsStatus := []
    pendingItems := []
    confirmedItems := []
    quickOptions := []
    uiComponent := "none"
    selectedOptions := []
    itemsJustConfirmed := false
    textQueue := []
    isTyping := false
    addedFrom := false
    addedTo := false }

/-- The `SESSION_RESET` branch of `handleServerMessage`: store the new
session token, then `resetState()`. -/
def handleSessionReset (s : AppState) (newToken : String) : AppState :=
  resetState { s with sessionToken := newToken }

/-- The quick-option part of the `METADATA` branch: when the event carries
`quick_options`, compare (structurally) with the last displayed set
(`lastOptionsRef`); update both only when they differ. -/
def handleMetadataOptions (s : AppState) (opts : Option (List String)) : AppState :=
  match opts with
  | none => s
  | some newOptions =>
    if newOptions = s.lastOptions then s
    else { s with quickOptions := newOptions, lastOptions := newOptions }

/-- `content.trim()`: strip leading and trailing whitespace. -/
def jsTrim (s : String) : String :=
  String.mk (((s.data.dropWhile Char.isWhitespace).reverse.dropWhile
    Char.isWhitespace).reverse)

/-- The add-item keywords checked by `sendMessage`. -/
def addItemKeywords : List String :=
  ["继续添加", "添加物品", "再添加", "上传图片", "还有物品", "还要添加"]

/-- `content.includes(kw)`: substring occurrence. -/
def strIncludes (content kw : String) : Bool :=
  (content.splitOn kw).length != 1

/-- A plain user chat bubble. -/
def userMsg (content : String) : ChatMsg :=
  { role := "user", msgType := "", content := content,
    addressRole := none, confirmed := false, streaming := false }

/-- `sendMessage(content)` from App.jsx.  Guard: empty/whitespace content, no
WebSocket, or not connected is a no-op.  In phase 4, add-item keywords show
the item-evaluation card locally instead of transmitting.  Otherwise the user
bubble is appended, the message is sent, the input and quick options are
cleared and loading starts. -/
def sendMessage (s : AppState) (content : Option String) : AppState × List ClientOut :=
  match content with
  | none => (s, [])
  | some c =>
    if jsTrim c = "" ∨ s.wsPresent = false ∨ s.isConnected = false then
      (s, [])
    else
      let isAddItemRequest := addItemKeywords.any (fun kw => strIncludes c kw)
      if isAddItemRequest ∧ s.currentPhase = 4 then
        ({ s with uiComponent := "item_evaluation", quickOptions := [], inputValue := "" }, [])
      else
        ({ s with
            messages := s.messages ++ [userMsg c]
            inputValue := ""
            quickOptions := []
            lastOptions := []
            isLoading := true },
         [.chatMessage c])

/-- `deleteItem(id)` from App.jsx: drop the pending entries whose `id`
matches; nothing else changes. -/
def deleteItem (s : AppState) (id : Nat) : AppState :=
  { s with pendingItems := s.pendingItems.filter (fun i => i.id != id) }

/-- `confirmItems()` from App.jsx: send the pending batch, embed an items
card, append the batch to the confirmed list, and clear the pending list. -/
def confirmItems (s : AppState) : AppState × List ClientOut :=
  ({ s with
      messages := s.messages ++
        [{ role := "assistant", msgType := "items_card", content := "",
           addressRole := none, confirmed := true, streaming := false }]
      confirmedItems := s.confirmedItems ++ s.pendingItems
      pendingItems := []
      itemsJustConfirmed := false },
   [.itemsConfirmed s.pendingItems])

/-- A fresh streaming assistant bubble holding one character
(`{ role: 'assistant', content: char, streaming: true }`). -/
def newStreamingMsg (c : Char) : ChatMsg :=
  { role := "assistant", msgType := "", content := String.singleton c,
    addressRole := none, confirmed := false, streaming := true }

/-- One step of `typeNextChar`: append the character to the trailing
streaming assistant bubble, or start a new one. -/
def appendChar (msgs : List ChatMsg) (c : Char) : List ChatMsg :=
  match msgs.getLast? with
  | some last =>
    if last.role = "assistant" ∧ last.streaming = true then
      msgs.dropLast ++ [{ last with content := last.content ++ String.singleton c }]
    else msgs ++ [newStreamingMsg c]
  | none => msgs ++ [newStreamingMsg c]

/-- Draining the typing queue: characters are consumed strictly in queue
order, one `appendChar` step each. -/
def drainQueue (msgs : List ChatMsg) (q : List Char) : List ChatMsg :=
  q.foldl appendChar msgs

/-- The `TEXT_DELTA` branch: push the chunk's characters onto the typing
queue and run `processTextQueue`; modelled with the timer loop collapsed to
its completed effect (the queue fully drained). -/
def handleTextDelta (s : AppState) (content : String) : AppState :=
  { s with
      isLoading := true
      messages := drainQueue s.messages (s.textQueue ++ content.toList)
      textQueue := []
      isTyping := false }

/-- `TEXT_DONE`'s final update: clear the `streaming` flag on the trailing
message, if it is set. -/
def clearStreaming (msgs : List ChatMsg) : List ChatMsg :=
  match msgs.getLast? with
  | some last =>
    if last.streaming = true then msgs.dropLast ++ [{ last with streaming := false }]
    else msgs
  | none => msgs

/-- The `TEXT_DONE` branch: `waitForTyping` polls until the queue is empty
and typing has stopped, and only then stops loading and clears the
`streaming` flag; modelled as draining whatever is still queued before the
flag is touched. -/
def handleTextDone (s : AppState) : AppState :=
  { s with
      messages := clearStreaming (drainQueue s.messages s.textQueue)
      textQueue := []
      isTyping := false
      isLoading := false }

/-- Message type of the embedded card for a `ui_component` type. -/
def cardMsgType (uiType : String) : String :=
  if uiType = "address_confirm" then "address_confirm_card" else "address_selection_card"

/-- The `fields_status` key for an address role. -/
def roleFieldKey : AddressRole → String
  | .fromAddr => "from_address"
  | .toAddr => "to_address"

/-- `isAlreadyConfirmed` in the `METADATA` branch: the role's address record
in the event's `fields_status` has status `baseline` and does not need
confirmation. -/
def isAlreadyConfirmed (fs : FieldsStatus) (role : AddressRole) : Bool :=
  match List.lookup (roleFieldKey role) fs with
  | some r => r.status == "baseline" && !r.needsConfirmation
  | none => false

/-- Mark every embedded address card of the given role as confirmed
(the map used by `ADDRESS_CONFIRMED` and by the already-confirmed
`METADATA` branch). -/
def markAddressCards (role : AddressRole) (msgs : List ChatMsg) : List ChatMsg :=
  msgs.map fun m =>
    if (m.msgType = "address_confirm_card" ∨ m.msgType = "address_selection_card") ∧
        m.addressRole = some role then
      { m with confirmed := true }
    else m

/-- `addedAddressCardsRef.current[addressType] = true`. -/
def withAdded (s : AppState) (role : AddressRole) : AppState :=
  match role with
  | .fromAddr => { s with addedFrom := true }
  | .toAddr => { s with addedTo := true }

/-- The embedded card message appended after the verification animation. -/
def addressCardMsg (uiType : String) (role : AddressRole) : ChatMsg :=
  { role := "assistant", msgType := cardMsgType uiType, content := "",
    addressRole := some role, confirmed := false, streaming := false }

/-- The address-card part of the `METADATA` branch: guarded by the
`addedAddressCardsRef` marker, the already-confirmed check and the running
verification animation; the 4-step animation is collapsed to its completed
effect (the marker set and exactly one unconfirmed card appended). -/
def handleAddressCard (s : AppState) (uiType : String) (role : AddressRole)
    (eventFields : FieldsStatus) : AppState :=
  let alreadyConfirmed := isAlreadyConfirmed eventFields role
  let alreadyAdded := s.added role
  if alreadyAdded = false ∧ alreadyConfirmed = false ∧ s.isVerifyingAddress = false then
    let s1 := withAdded s role
    { s1 with
        messages := s1.messages ++ [addressCardMsg uiType role]
        isVerifyingAddress := false }
  else if alreadyAdded = true ∧ alreadyConfirmed = true then
    { s with messages := markAddressCards role s.messages }
  else s

/-- `handleAddressSelected(addressType, selectedAddress)`: transmit the
chosen candidate unchanged in an `address_selected` message and mark the
role's embedded selection cards as confirmed. -/
def handleAddressSelected (s : AppState) (role : AddressRole) (addr : AddressCandidate) :
    AppState × List ClientOut :=
  ({ s with
      messages := s.messages.map fun m =>
        if m.msgType = "address_selection_card" ∧ m.addressRole = some role then
          { m with confirmed := true }
        else m },
   [.addressSelected role addr])

/-- `handleAddressConfirmed(addressType, confirmed)`: start loading, send the
confirmation, and on a positive answer mark the role's confirm cards. -/
def handleAddressConfirmed (s : AppState) (role : AddressRole) (confirmed : Bool) :
    AppState × List ClientOut :=
  ({ s with
      isLoading := true
      messages :=
        if confirmed then
          s.messages.map fun m =>
            if m.msgType = "address_confirm_card" ∧ m.addressRole = some role then
              { m with confirmed := true }
            else m
        else s.messages },
   [.addressConfirmed role confirmed])

/-- The `ADDRESS_CONFIRMED` server event: mark both kinds of embedded
address cards of the role as confirmed. -/
def handleAddressConfirmedEvent (s : AppState) (role : AddressRole) : AppState :=
  { s with messages := markAddressCards role s.messages }

/-- The `MESSAGE_HISTORY` branch: replace the message list with plain
(role, content) bubbles, none of them streaming. -/
def handleMessageHistory (s : AppState) (entries : List (String × String)) : AppState :=
  { s with
      messages := entries.map fun e =>
        { role := e.1, msgType := "", content := e.2,
          addressRole := none, confirmed := false, streaming := false } }

/-- The file the user picked (`file.type`, `file.size`). -/
structure JsFile where
  mimeType : String
  size : Nat
deriving Repr, DecidableEq

/-- A detected item as returned by the upload endpoint. -/
structure RawItem where
  name : String
  nameJa : String
  category : String
  count : Nat
  note : String
deriving Repr, DecidableEq

/-- Outcome of the `/api/items/upload` call, supplied as an input to the
handler (the network itself is a collaborator). -/
inductive UploadResponse where
  | httpError (detail : String)
  | recognitionFailed (err : String)
  | ok (imageId : String) (items : List RawItem)
deriving Repr, DecidableEq

/-- Observable effects of `handleFileSelected`. -/
inductive UploadEffect where
  | httpUpload
  | wsImageUploaded (imageId : String) (items : List Item)
  | errorNotice (text : String)
  | successNotice (text : String)
deriving Repr, DecidableEq

/-- The accepted MIME types. -/
def allowedTypes : List String :=
  ["image/jpeg", "image/png", "image/webp", "image/gif"]

/-- Conversion of the recognition result (`result.items.map((item, index) =>
...)`, with `count || 1` and `note || ''`). -/
def convertItems (raw : List RawItem) : List Item :=
  raw.enum.map fun p =>
    { id := p.1 + 1, name := p.2.name, nameJa := p.2.nameJa,
      category := p.2.category,
      count := if p.2.count = 0 then 1 else p.2.count,
      note := p.2.note }

/-- `handleFileSelected` from App.jsx: validate the MIME type and the 10 MB
size bound before any upload; on success transmit the converted items over
the WebSocket and store them as the pending batch. -/
def handleFileSelected (s : AppState) (file : Option JsFile) (resp : UploadResponse) :
    AppState × List UploadEffect :=
  match file with
  | none => (s, [])
  | some f =>
    if (allowedTypes.contains f.mimeType) = false then
      (s, [.errorNotice "只支持 JPG、PNG、WebP、GIF 格式的图片"])
    else if f.size > 10 * 1024 * 1024 then
      (s, [.errorNotice "图片大小不能超过 10MB"])
    else
      match resp with
      | .httpError d =>
        ({ s with isRecognizing := false, recognitionStep := 3 },
         [.httpUpload, .errorNotice d])
      | .recognitionFailed e =>
        ({ s with isRecognizing := false, recognitionStep := 4 },
         [.httpUpload, .errorNotice e])
      | .ok imageId raw =>
        let items := convertItems raw
        ({ s with pendingItems := items, isRecognizing := false, recognitionStep := 4 },
         [.httpUpload, .wsImageUploaded imageId items, .successNotice "识别成功"])

/-- Modelled from the spec: the merge unit of the backend Item Recognition
Merge Engine (`services/item_service.py` plus session item state, absent
from src/): `name`, `localizedName`, `category`, `count`, optional `note`;
identity for merge purposes is `(name, category)`. -/
structure SpecItem where
  name : String
  localizedName : String
  category : String
  count : Nat
  note : String
deriving Repr, DecidableEq

/-- Modelled from the spec: "the richer `note`/`localizedName` (longer
non-empty string) is kept". -/
def richer (a b : String) : String :=
  if a = "" then b
  else if b = "" then a
  else if a.length < b.length then b
  else a

/-- The merge key comparison: `(name, category)`. -/
def sameKey (a b : SpecItem) : Bool :=
  a.name == b.name && a.category == b.category

/-- Modelled from the spec: on a `(name, category)` collision the counts are
summed and the richer `note`/`localizedName` kept. -/
def combineItems (a b : SpecItem) : SpecItem :=
  { name := a.name, category := a.category,
    localizedName := richer a.localizedName b.localizedName,
    count := a.count + b.count,
    note := richer a.note b.note }

/-- Merge a single newly detected item into the accumulated list: combine
with the first entry carrying the same key, or append. -/
def mergeOne : List SpecItem → SpecItem → List SpecItem
  | [], b => [b]
  | a :: rest, b => if sameKey a b then combineItems a b :: rest else a :: mergeOne rest b

/-- Modelled from the spec: `merge(existingItems, newlyDetectedItems)` of the
backend Item Recognition Merge Engine (absent from src/). -/
def merge (existing newItems : List SpecItem) : List SpecItem :=
  newItems.foldl mergeOne existing

/-- Total count a list carries under the `(name, category)` key. -/
def keyCount (nm cat : String) (l : List SpecItem) : Nat :=
  (l.map fun i => if i.name = nm ∧ i.category = cat then i.count else 0).sum

/-- Modelled from the spec: the states of one Address Verification Sub-flow
instance (backend `services/address_service.py` plus session state, absent
from src/). -/
inductive SubflowState where
  | idle
  | resolving (rawText : String)
  | disambiguating (candidates : List AddressCandidate)
  | confirming (candidate : AddressCandidate)
  | confirmedAddr (candidate : AddressCandidate)
deriving Repr, DecidableEq

/-- The typed sub-flow errors surfaced to the caller. -/
inductive SubflowError where
  | unresolvedAddress
  | subflowBusy
deriving Repr, DecidableEq

/-- Modelled from the spec: `submit(rawText)` starts a resolution from
`idle`; a new submit while the instance is non-idle is rejected as
"sub-flow busy" with the state left unchanged. -/
def subflowSubmit : SubflowState → String → SubflowState × Option SubflowError
  | .idle, rawText => (.resolving rawText, none)
  | s, _ => (s, some .subflowBusy)

/-- Modelled from the spec: `result(candidates)` — zero candidates returns
to `idle` reporting `UnresolvedAddress`; one candidate moves to `confirming`
holding it; several move to `disambiguating` holding the list. -/
def subflowResult : SubflowState → List AddressCandidate → SubflowState × Option SubflowError
  | .resolving _, [] => (.idle, some .unresolvedAddress)
  | .resolving _, [c] => (.confirming c, none)
  | .resolving _, cs => (.disambiguating cs, none)
  | s, _ => (s, none)

/-- Modelled from the spec: `select(candidateIndex)` from `disambiguating`
moves to `confirming` holding the chosen candidate. -/
def subflowSelect : SubflowState → Nat → SubflowState
  | .disambiguating cs, i =>
    match cs[i]? with
    | some c => .confirming c
    | none => .disambiguating cs
  | s, _ => s

/-- Modelled from the spec: the Phase Controller (backend
`core/phase_inference.py`, absent from src/).  `complete p` says phase `p`'s
required fields are all `baseline`; scanning forward from the current phase,
the controller stops at the first incomplete phase (capped at the final
phase 6). -/
def scanForward (complete : Nat → Bool) : Nat → Nat → Nat
  | 0, cur => cur
  | fuel + 1, cur => if complete cur = true ∧ cur < 6 then scanForward complete fuel (cur + 1) else cur

/-- The recomputed phase after a Field Store mutation. -/
def nextPhase (complete : Nat → Bool) (cur : Nat) : Nat :=
  scanForward complete 7 cur

/-- The events that can change a session's phase: a recomputation against
the field completeness at that instant, or a session reset. -/
inductive PhaseEvent where
  | recompute (complete : Nat → Bool)
  | reset

/-- One phase transition. -/
def phaseStep (p : Nat) : PhaseEvent → Nat
  | .recompute c => nextPhase c p
  | .reset => 0

/-- The phase after processing a sequence of events. -/
def runPhase (p : Nat) (evs : List PhaseEvent) : Nat :=
  evs.foldl phaseStep p

/-- Every message-mutating client transition, as one event type: the address
card part of `METADATA`, a user send, streamed text, a confirmed item batch,
the address selection/confirmation handlers and server events, a history
replacement, and a session reset. -/
inductive CardEvent where
  | metadataCard (uiType : String) (role : AddressRole) (eventFields : FieldsStatus)
  | userSend (content : String)
  | textDelta (content : String)
  | textDone
  | confirmBatch
  | selectAddr (role : AddressRole) (addr : AddressCandidate)
  | clientConfirmAddr (role : AddressRole) (confirmed : Bool)
  | serverConfirmAddr (role : AddressRole)
  | history (entries : List (String × String))
  | resetEvt (tok : String)

/-- The state transition of one `CardEvent`. -/
def cardStep (s : AppState) : CardEvent → AppState
  | .metadataCard uiType role fs => handleAddressCard s uiType role fs
  | .userSend c => (sendMessage s (some c)).1
  | .textDelta c => handleTextDelta s c
  | .textDone => handleTextDone s
  | .confirmBatch => (confirmItems s).1
  | .selectAddr role addr => (handleAddressSelected s role addr).1
  | .clientConfirmAddr role b => (handleAddressConfirmed s role b).1
  | .serverConfirmAddr role => handleAddressConfirmedEvent s role
  | .history entries => handleMessageHistory s entries
  | .resetEvt tok => handleSessionReset s tok

/-- Run a sequence of client events. -/
def runCards (s : AppState) (evs : List CardEvent) : AppState :=
  evs.foldl cardStep s

/-- Whether a message is an unconfirmed embedded address card of the role. -/
def isOpenCard (role : AddressRole) (m : ChatMsg) : Bool :=
  (m.msgType == "address_confirm_card" || m.msgType == "address_selection_card") &&
    m.addressRole == some role && !m.confirmed

/-- Number of unconfirmed address verification cards of a role. -/
def openCards (role : AddressRole) (msgs : List ChatMsg) : Nat :=
  msgs.countP (isOpenCard role)

/-- Number of embedded address cards (confirmed or not) of a role. -/
def roleCards (role : AddressRole) (msgs : List ChatMsg) : Nat :=
  msgs.countP fun m =>
    (m.msgType == "address_confirm_card" || m.msgType == "address_selection_card") &&
      m.addressRole == some role

/-- The per-role bound maintained by the client: a role has an unconfirmed
address card only when its `addedAddressCardsRef` marker is set, and then at
most one. -/
def cardInv (s : AppState) : Prop :=
  ∀ role : AddressRole,
    openCards role s.messages ≤ (if s.added role = true then 1 else 0)

/-- An in-progress assistant bubble with the given accumulated content. -/
def streamBubble (t : String) : ChatMsg :=
  { role := "assistant", msgType := "", content := t,
    addressRole := none, confirmed := false, streaming := true }

/-- The settled assistant bubble a finished turn leaves behind. -/
def doneBubble (t : String) : ChatMsg :=
  { streamBubble t with streaming := false }

/-- The characters of a chunk sequence in arrival order. -/
def charsOf (chunks : List String) : List Char :=
  (chunks.map String.toList).flatten

/-- One full assistant turn: the `text_delta` chunks in arrival order,
followed by `text_done`. -/
def runTurn (s : AppState) (chunks : List String) : AppState :=
  handleTextDone (chunks.foldl handleTextDelta s)

/-- A concrete reference state used by closed witness/counterexample
theorems (connected, idle, with a stale non-zero completion rate). -/
def sampleState : AppState :=
  { messages := [], inputValue := "", wsPresent := true, isConnected := true,
    isLoading := false, currentPhase := 0, fieldsStatus := [],
    quickOptions := [], uiComponent := "none",
    completion := { completionRate := 1, canSubmit := false },
    pendingItems := [], confirmedItems := [], isRecognizing := false,
    recognitionStep := 0, itemsJustConfirmed := false,
    isVerifyingAddress := false, textQueue := [], isTyping := false,
    lastOptions := [], addedFrom := false, addedTo := false,
    selectedOptions := [], sessionToken := "tok" }

/-- A concrete address candidate. -/
def candA : AddressCandidate :=
  { formattedAddress := "東京都渋谷区神南1-1", postalCode := "1500041",
    prefecture := "東京都", city := "渋谷区", district := "神南" }

/-- Another concrete address candidate. -/
def candB : AddressCandidate :=
  { formattedAddress := "東京都新宿区新宿2-2", postalCode := "1600022",
    prefecture := "東京都", city := "新宿区", district := "新宿" }

/-- C1 (counterexample): the claim asserts that after a `session_reset` event
the derived completion rate equals 0; but `resetState` never touches the
stored `completion` object, so from a state with rate 1 the post-reset rate
is still 1, not 0. -/
theorem session_reset_stale_completion_rate :
    (handleSessionReset sampleState "tok2").completion.completionRate = 1 ∧
    ¬ (handleSessionReset sampleState "tok2").completion.completionRate = 0 := by
  refine ⟨rfl, ?_⟩
  intro h
  simp [handleSessionReset, resetState, sampleState] at h

/-- C1 (amended): after a `session_reset` event is processed, `fields_status`
is empty (so every field reads `not_collected`), the pending and confirmed
item lists, quick options and phase are cleared — but the stored `completion`
object is left unchanged, retaining its pre-reset value until the next
`metadata` event. -/
theorem session_reset_clears_state_but_not_completion
    (s : AppState) (tok : String) :
    (handleSessionReset s tok).fieldsStatus = [] ∧
    (∀ k, statusOf (handleSessionReset s tok).fieldsStatus k = "not_collected") ∧
    (handleSessionReset s tok).pendingItems = [] ∧
    (handleSessionReset s tok).confirmedItems = [] ∧
    (handleSessionReset s tok).quickOptions = [] ∧
    (handleSessionReset s tok).currentPhase = 0 ∧
    (handleSessionReset s tok).messages = [] ∧
    (handleSessionReset s tok).completion = s.completion :=
  ⟨rfl, fun _ => rfl, rfl, rfl, rfl, rfl, rfl, rfl⟩

/-- C3: quick-option deduplication.  Processing the same `quick_options`
set twice changes nothing the second time; a set structurally equal to the
last displayed one causes no update at all; a different set updates both
the displayed options and the recorded last-sent set. -/
theorem quick_options_dedup :
    (∀ (s : AppState) (opts : Option (List String)),
      handleMetadataOptions (handleMetadataOptions s opts) opts =
        handleMetadataOptions s opts) ∧
    (∀ (s : AppState) (newOptions : List String),
      newOptions = s.lastOptions →
        handleMetadataOptions s (some newOptions) = s) ∧
    (∀ (s : AppState) (newOptions : List String),
      newOptions ≠ s.lastOptions →
        (handleMetadataOptions s (some newOptions)).quickOptions = newOptions ∧
        (handleMetadataOptions s (some newOptions)).lastOptions = newOptions) := by
  refine ⟨?_, ?_, ?_⟩
  · intro s opts
    cases opts with
    | none => rfl
    | some n =>
      by_cases h : n = s.lastOptions
      · simp [handleMetadataOptions, h]
      · simp [handleMetadataOptions, h]
  · intro s n h
    simp [handleMetadataOptions, h]
  · intro s n h
    simp [handleMetadataOptions, h]

/-- C3 (witness): at concrete inputs — a fresh set updates the display, and
re-delivering the recorded set is a no-op. -/
theorem quick_options_dedup_witness :
    (handleMetadataOptions sampleState (some ["单身"])).quickOptions = ["单身"] ∧
    handleMetadataOptions { sampleState with lastOptions := ["单身"] }
        (some ["单身"]) = { sampleState with lastOptions := ["单身"] } :=
  ⟨(quick_options_dedup.2.2 sampleState ["单身"] (by simp [sampleState])).1,
   quick_options_dedup.2.1 { sampleState with lastOptions := ["单身"] } ["单身"] rfl⟩

/-- C8: deleting one pending item by id removes exactly the entries with
that id from the pending list and changes nothing else — the remaining
pending items, the confirmed list and the messages are untouched. -/
theorem delete_pending_item_frame (s : AppState) (id : Nat) :
    (deleteItem s id).pendingItems = s.pendingItems.filter (fun i => i.id != id) ∧
    (deleteItem s id).confirmedItems = s.confirmedItems ∧
    (deleteItem s id).messages = s.messages ∧
    (∀ i : Item, i ∈ (deleteItem s id).pendingItems ↔
      i ∈ s.pendingItems ∧ i.id ≠ id) := by
  refine ⟨rfl, rfl, rfl, ?_⟩
  intro i
  simp [deleteItem, List.mem_filter]

/-- C9: `sendMessage` is a complete no-op — nothing is transmitted and the
state is unchanged — whenever the content is absent or trims to the empty
string, the WebSocket is absent, or the connection is not open. -/
theorem send_message_noop_guard (s : AppState) (content : Option String)
    (h : content = none ∨ (∃ c, content = some c ∧ jsTrim c = "") ∨
         s.wsPresent = false ∨ s.isConnected = false) :
    sendMessage s content = (s, []) := by
  rcases h with rfl | ⟨c, rfl, ht⟩ | hw | hc
  · rfl
  · simp [sendMessage, ht]
  · cases content with
    | none => rfl
    | some c => simp [sendMessage, hw]
  · cases content with
    | none => rfl
    | some c => simp [sendMessage, hc]

/-- C9 (witness): a whitespace-only input is dropped with no state change
and no outbound message. -/
theorem send_message_noop_guard_witness :
    sendMessage sampleState (some "   ") = (sampleState, []) :=
  send_message_noop_guard sampleState (some "   ")
    (Or.inr (Or.inl ⟨"   ", rfl, by decide⟩))

/-- Merging a single item changes a key's total count by exactly the item's
contribution to that key. -/
theorem keyCount_mergeOne (nm cat : String) (b : SpecItem) :
    ∀ l, keyCount nm cat (mergeOne l b) =
      keyCount nm cat l + (if b.name = nm ∧ b.category = cat then b.count else 0) := by
  intro l
  induction l with
  | nil => simp [mergeOne, keyCount]
  | cons a l ih =>
    by_cases hk : sameKey a b = true
    · have hks := hk
      simp only [sameKey, Bool.and_eq_true, beq_iff_eq] at hks
      obtain ⟨h1, h2⟩ := hks
      simp only [mergeOne, if_pos hk, keyCount, List.map_cons, List.sum_cons,
        combineItems]
      by_cases hm : a.name = nm ∧ a.category = cat
      · rw [if_pos hm, if_pos hm, if_pos (h1 ▸ h2 ▸ hm)]
        omega
      · rw [if_neg hm, if_neg hm, if_neg (by rw [h1, h2] at hm; exact hm)]
        omega
    · simp only [mergeOne, if_neg hk, keyCount, List.map_cons, List.sum_cons] at ih ⊢
      rw [ih]
      omega

/-- Per-key count additivity of `merge` over the new-item list. -/
theorem keyCount_merge (nm cat : String) :
    ∀ (B A : List SpecItem),
      keyCount nm cat (merge A B) = keyCount nm cat A + keyCount nm cat B := by
  intro B
  induction B with
  | nil => intro A; simp [merge, keyCount]
  | cons b B ih =>
    intro A
    have h1 : merge A (b :: B) = merge (mergeOne A b) B := rfl
    rw [h1, ih, keyCount_mergeOne]
    simp only [keyCount, List.map_cons, List.sum_cons]
    omega

/-- C2: item merging is keyed on `(name, category)` — merging against the
empty list is the identity (so `merge(merge(A,B),[]) = merge(A,B)`), the
Sofa example collapses to a single entry with count 3, every key's total
count is additive across a merge (collisions sum counts, never duplicate a
key that `merge` combines), and a singleton collision keeps the summed count
and the richer (longer non-empty) note/localizedName. -/
theorem merge_key_sum_idempotent :
    (∀ A B : List SpecItem, merge (merge A B) [] = merge A B) ∧
    (merge
        [{ name := "Sofa", localizedName := "", category := "furniture",
           count := 1, note := "" }]
        [{ name := "Sofa", localizedName := "", category := "furniture",
           count := 2, note := "" }] =
      [{ name := "Sofa", localizedName := "", category := "furniture",
         count := 3, note := "" }]) ∧
    (∀ (nm cat : String) (A B : List SpecItem),
      keyCount nm cat (merge A B) = keyCount nm cat A + keyCount nm cat B) ∧
    (∀ (n c ln1 ln2 no1 no2 : String) (k1 k2 : Nat),
      merge [{ name := n, localizedName := ln1, category := c, count := k1, note := no1 }]
          [{ name := n, localizedName := ln2, category := c, count := k2, note := no2 }] =
        [{ name := n, localizedName := richer ln1 ln2, category := c,
           count := k1 + k2, note := richer no1 no2 }]) := by
  refine ⟨fun A B => rfl, by decide, fun nm cat A B => keyCount_merge nm cat B A, ?_⟩
  intro n c ln1 ln2 no1 no2 k1 k2
  simp [merge, mergeOne, sameKey, combineItems]

/-- The forward scan never moves below its starting phase. -/
theorem le_scanForward (complete : Nat → Bool) :
    ∀ (fuel cur : Nat), cur ≤ scanForward complete fuel cur := by
  intro fuel
  induction fuel with
  | zero => intro cur; exact Nat.le_refl cur
  | succ n ih =>
    intro cur
    by_cases h : complete cur = true ∧ cur < 6
    · calc cur ≤ cur + 1 := Nat.le_succ cur
        _ ≤ scanForward complete n (cur + 1) := ih (cur + 1)
        _ = scanForward complete (n + 1) cur := by rw [scanForward, if_pos h]
    · rw [scanForward, if_neg h]

/-- C4: the phase is monotonically non-decreasing between resets — a phase
recomputation (from any field completeness) never yields a smaller phase, no
non-reset event lowers the phase, a whole reset-free event sequence never
lowers it, and a session reset returns it to phase 0. -/
theorem phase_monotone_between_resets :
    (∀ (complete : Nat → Bool) (p : Nat), p ≤ nextPhase complete p) ∧
    (∀ (p : Nat) (e : PhaseEvent), e ≠ PhaseEvent.reset → p ≤ phaseStep p e) ∧
    (∀ (p : Nat) (evs : List PhaseEvent),
      (∀ e ∈ evs, e ≠ PhaseEvent.reset) → p ≤ runPhase p evs) ∧
    (∀ p : Nat, phaseStep p PhaseEvent.reset = 0) := by
  have hnext : ∀ (complete : Nat → Bool) (p : Nat), p ≤ nextPhase complete p :=
    fun complete p => le_scanForward complete 7 p
  have hstep : ∀ (p : Nat) (e : PhaseEvent), e ≠ PhaseEvent.reset → p ≤ phaseStep p e := by
    intro p e he
    cases e with
    | recompute c => exact hnext c p
    | reset => exact absurd rfl he
  refine ⟨hnext, hstep, ?_, fun p => rfl⟩
  intro p evs
  induction evs generalizing p with
  | nil => intro _; exact Nat.le_refl p
  | cons e evs ih =>
    intro h
    calc p ≤ phaseStep p e := hstep p e (h e (List.mem_cons_self e evs))
      _ ≤ runPhase (phaseStep p e) evs := ih (phaseStep p e)
          (fun x hx => h x (List.mem_cons_of_mem e hx))
      _ = runPhase p (e :: evs) := rfl

/-- C4 (witness): along a concrete reset-free trace the phase never drops,
and a reset returns to 0. -/
theorem phase_monotone_between_resets_witness :
    2 ≤ runPhase 2 [PhaseEvent.recompute (fun _ => true),
        PhaseEvent.recompute (fun _ => false)] ∧
    phaseStep 5 PhaseEvent.reset = 0 := by
  constructor
  · refine phase_monotone_between_resets.2.2.1 2 _ ?_
    intro e he
    rcases List.mem_cons.mp he with rfl | he2
    · intro hc; cases hc
    · rcases List.mem_cons.mp he2 with rfl | he3
      · intro hc; cases hc
      · cases he3
  · exact phase_monotone_between_resets.2.2.2 5

/-- C5: the address verification sub-flow — zero candidates return the flow
to idle reporting `UnresolvedAddress`; exactly one candidate moves it to
`confirming` holding that candidate; more than one moves it to
`disambiguating` holding the list, and selecting any valid index `i` moves
to `confirming` holding exactly candidate `i`; on the client,
`handleAddressSelected` transmits that same candidate in the
`address_selected` message and marks the role's selection cards as
confirmed. -/
theorem address_subflow_transitions :
    (∀ t : String,
      subflowResult (SubflowState.resolving t) [] =
        (SubflowState.idle, some SubflowError.unresolvedAddress)) ∧
    (∀ (t : String) (c : AddressCandidate),
      subflowResult (SubflowState.resolving t) [c] =
        (SubflowState.confirming c, none)) ∧
    (∀ (t : String) (c1 c2 : AddressCandidate) (rest : List AddressCandidate),
      subflowResult (SubflowState.resolving t) (c1 :: c2 :: rest) =
        (SubflowState.disambiguating (c1 :: c2 :: rest), none)) ∧
    (∀ (cs : List AddressCandidate) (i : Nat) (h : i < cs.length),
      subflowSelect (SubflowState.disambiguating cs) i =
        SubflowState.confirming (cs.get ⟨i, h⟩)) ∧
    (∀ (s : AppState) (role : AddressRole) (addr : AddressCandidate),
      (handleAddressSelected s role addr).2 = [ClientOut.addressSelected role addr] ∧
      ∀ m ∈ (handleAddressSelected s role addr).1.messages,
        m.msgType = "address_selection_card" → m.addressRole = some role →
          m.confirmed = true) := by
  refine ⟨fun t => rfl, fun t c => rfl, fun t c1 c2 rest => rfl, ?_, ?_⟩
  · intro cs i h
    simp [subflowSelect, List.getElem?_eq_getElem h]
  · intro s role addr
    refine ⟨rfl, ?_⟩
    intro m hm
    simp only [handleAddressSelected, List.mem_map] at hm
    obtain ⟨m0, hm0, rfl⟩ := hm
    by_cases hc : m0.msgType = "address_selection_card" ∧ m0.addressRole = some role
    · simp [hc]
    · simp only [if_neg hc]
      intro h1 h2
      exact absurd ⟨h1, h2⟩ hc

/-- C5 (witness): with two concrete candidates, selecting index 1 confirms
exactly the second, and the client transmits the selected candidate. -/
theorem address_subflow_transitions_witness :
    subflowSelect (SubflowState.disambiguating [candA, candB]) 1 =
      SubflowState.confirming candB ∧
    (handleAddressSelected sampleState AddressRole.fromAddr candA).2 =
      [ClientOut.addressSelected AddressRole.fromAddr candA] := by
  constructor
  · have h1 : (1 : Nat) < ([candA, candB] : List AddressCandidate).length := by
      simp
    have h2 := address_subflow_transitions.2.2.2.1 [candA, candB] 1 h1
    simpa using h2
  · exact (address_subflow_transitions.2.2.2.2 sampleState AddressRole.fromAddr candA).1

/-- C10: when the chosen file's MIME type is outside the allowed set or its
size strictly exceeds 10 MB, `handleFileSelected` performs no HTTP upload,
sends no `image_uploaded` message, and leaves the state — in particular the
pending item list — unchanged; only an error notice is emitted. -/
theorem upload_validation_rejects (s : AppState) (f : JsFile) (resp : UploadResponse)
    (h : (allowedTypes.contains f.mimeType) = false ∨ f.size > 10 * 1024 * 1024) :
    (handleFileSelected s (some f) resp).1 = s ∧
    (∃ m, (handleFileSelected s (some f) resp).2 = [UploadEffect.errorNotice m]) ∧
    UploadEffect.httpUpload ∉ (handleFileSelected s (some f) resp).2 ∧
    (∀ (imageId : String) (items : List Item),
      UploadEffect.wsImageUploaded imageId items ∉ (handleFileSelected s (some f) resp).2) ∧
    (handleFileSelected s (some f) resp).1.pendingItems = s.pendingItems := by
  by_cases ht : (allowedTypes.contains f.mimeType) = false
  · have ht2 : f.mimeType ∉ allowedTypes := by simpa using ht
    refine ⟨?_, ?_, ?_, ?_, ?_⟩
    · simp [handleFileSelected, ht, ht2]
    · exact ⟨"只支持 JPG、PNG、WebP、GIF 格式的图片", by simp [handleFileSelected, ht, ht2]⟩
    · simp [handleFileSelected, ht, ht2]
    · intro imageId items; simp [handleFileSelected, ht, ht2]
    · simp [handleFileSelected, ht, ht2]
  · have hs : f.size > 10 * 1024 * 1024 := by
      rcases h with h | h
      · exact absurd h ht
      · exact h
    have ht2 : f.mimeType ∈ allowedTypes := by
      by_cases hm : f.mimeType ∈ allowedTypes
      · exact hm
      · exact absurd (by simpa using hm) ht
    refine ⟨?_, ?_, ?_, ?_, ?_⟩
    · simp [handleFileSelected, ht2, hs]
    · exact ⟨"图片大小不能超过 10MB", by simp [handleFileSelected, ht2, hs]⟩
    · simp [handleFileSelected, ht2, hs]
    · intro imageId items; simp [handleFileSelected, ht2, hs]
    · simp [handleFileSelected, ht2, hs]

/-- C10 (witness): a BMP file is rejected with only an error notice and no
state change. -/
theorem upload_validation_rejects_witness :
    (handleFileSelected sampleState (some { mimeType := "image/bmp", size := 1000 })
        (UploadResponse.ok "img1" [])).1 = sampleState ∧
    UploadEffect.httpUpload ∉
      (handleFileSelected sampleState (some { mimeType := "image/bmp", size := 1000 })
        (UploadResponse.ok "img1" [])).2 := by
  have h := upload_validation_rejects sampleState { mimeType := "image/bmp", size := 1000 }
    (UploadResponse.ok "img1" []) (Or.inl (by decide))
  exact ⟨h.1, h.2.2.1⟩

/-- Draining in batches equals draining the concatenated queue: chunk
characters are consumed strictly in arrival order. -/
theorem drainQueue_append (msgs : List ChatMsg) (q1 q2 : List Char) :
    drainQueue (drainQueue msgs q1) q2 = drainQueue msgs (q1 ++ q2) :=
  (List.foldl_append _ _ _ _).symm

/-- Appending one character then the rest equals appending all at once. -/
theorem strAppendSingleton (t : String) (c : Char) (cs : List Char) :
    (t ++ String.singleton c) ++ String.mk cs = t ++ String.mk (c :: cs) := by
  apply String.ext
  simp only [String.data_append]
  show (t.data ++ [c]) ++ cs = t.data ++ (c :: cs)
  simp

/-- Consuming the singleton character list. -/
theorem strSingletonMk (c : Char) (cs : List Char) :
    String.singleton c ++ String.mk cs = String.mk (c :: cs) := by
  apply String.ext
  simp only [String.data_append]
  show ([c] : List Char) ++ cs = c :: cs
  simp

/-- Draining onto a trailing streaming assistant bubble appends every
character, in order, to that bubble's content. -/
theorem drainQueue_stream (ms : List ChatMsg) :
    ∀ (cs : List Char) (m : ChatMsg), m.role = "assistant" → m.streaming = true →
      drainQueue (ms ++ [m]) cs =
        ms ++ [{ m with content := m.content ++ String.mk cs }] := by
  intro cs
  induction cs with
  | nil =>
    intro m hr hs
    have h1 : m.content ++ String.mk [] = m.content := by
      apply String.ext
      simp [String.data_append]
    show ms ++ [m] = ms ++ [{ m with content := m.content ++ String.mk [] }]
    rw [h1]
  | cons c cs ih =>
    intro m hr hs
    show drainQueue (appendChar (ms ++ [m]) c) cs = _
    have h1 : appendChar (ms ++ [m]) c =
        ms ++ [{ m with content := m.content ++ String.singleton c }] := by
      simp only [appendChar, List.getLast?_concat]
      rw [if_pos ⟨hr, hs⟩, List.dropLast_concat]
    rw [h1, ih { m with content := m.content ++ String.singleton c } hr hs,
      strAppendSingleton]

/-- When the trailing message is not a streaming assistant bubble, a
character starts a fresh streaming bubble. -/
theorem appendChar_fresh (msgs : List ChatMsg) (c : Char)
    (h : ∀ m, msgs.getLast? = some m → ¬(m.role = "assistant" ∧ m.streaming = true)) :
    appendChar msgs c = msgs ++ [newStreamingMsg c] := by
  rcases hL : msgs.getLast? with _ | last
  · simp [appendChar, hL]
  · simp only [appendChar, hL]
    rw [if_neg (h last hL)]

/-- Draining a nonempty queue from a turn-ready message list produces one
streaming bubble holding the queue's characters in order. -/
theorem drainQueue_fresh (msgs : List ChatMsg) (c : Char) (cs : List Char)
    (h : ∀ m, msgs.getLast? = some m → ¬(m.role = "assistant" ∧ m.streaming = true)) :
    drainQueue msgs (c :: cs) = msgs ++ [streamBubble (String.mk (c :: cs))] := by
  show drainQueue (appendChar msgs c) cs = _
  rw [appendChar_fresh msgs c h,
    drainQueue_stream msgs cs (newStreamingMsg c) rfl rfl]
  show msgs ++ [{ newStreamingMsg c with
      content := String.singleton c ++ String.mk cs }] = _
  rw [strSingletonMk]
  rfl

/-- Processing a chunk sequence drains every character into the message
list and leaves the queue empty. -/
theorem runDeltas (chunks : List String) :
    ∀ s : AppState, s.textQueue = [] →
      (chunks.foldl handleTextDelta s).messages =
        drainQueue s.messages (charsOf chunks) ∧
      (chunks.foldl handleTextDelta s).textQueue = [] := by
  induction chunks with
  | nil =>
    intro s h
    exact ⟨rfl, h⟩
  | cons ch chunks ih =>
    intro s h
    have hstep : (handleTextDelta s ch).messages =
        drainQueue s.messages ch.toList := by
      simp only [handleTextDelta]
      rw [h]
      rfl
    have hq : (handleTextDelta s ch).textQueue = [] := rfl
    have := ih (handleTextDelta s ch) hq
    refine ⟨?_, this.2⟩
    show (List.foldl handleTextDelta (handleTextDelta s ch) chunks).messages = _
    rw [this.1, hstep, drainQueue_append]
    rfl

/-- Clearing the streaming flag of a trailing streaming bubble. -/
theorem clearStreaming_concat (ms : List ChatMsg) (m : ChatMsg)
    (h : m.streaming = true) :
    clearStreaming (ms ++ [m]) = ms ++ [{ m with streaming := false }] := by
  simp only [clearStreaming, List.getLast?_concat]
  rw [if_pos h, List.dropLast_concat]

/-- Chunk characters and string concatenation agree. -/
theorem strFoldlMk (chunks : List String) :
    ∀ t : String, chunks.foldl (· ++ ·) t = String.mk (t.data ++ charsOf chunks) := by
  induction chunks with
  | nil =>
    intro t
    apply String.ext
    simp [charsOf]
  | cons ch chunks ih =>
    intro t
    show chunks.foldl (· ++ ·) (t ++ ch) = _
    rw [ih (t ++ ch)]
    apply String.ext
    show (t ++ ch).data ++ charsOf chunks = t.data ++ charsOf (ch :: chunks)
    rw [String.data_append]
    show t.data ++ ch.data ++ charsOf chunks = t.data ++ (ch.data ++ charsOf chunks)
    simp

/-- C7: streaming is an ordering contract — draining chunk queues in
batches equals draining their concatenation (chunks are appended in exactly
arrival order); the accumulated characters are the concatenation of the
chunk contents in arrival order; and a full turn (`text_delta*` then
`text_done`) appends exactly one assistant bubble whose content is that
concatenation, completed exactly once: the streaming flag ends cleared and
the queue is empty (the flag is only cleared after the queued text is fully
flushed), with loading stopped. -/
theorem streaming_order_contract :
    (∀ (msgs : List ChatMsg) (q1 q2 : List Char),
      drainQueue (drainQueue msgs q1) q2 = drainQueue msgs (q1 ++ q2)) ∧
    (∀ chunks : List String,
      String.mk (charsOf chunks) = chunks.foldl (· ++ ·) "") ∧
    (∀ (s : AppState) (chunks : List String),
      s.textQueue = [] →
      (∀ m, s.messages.getLast? = some m →
        ¬(m.role = "assistant" ∧ m.streaming = true)) →
      charsOf chunks ≠ [] →
      (runTurn s chunks).messages =
        s.messages ++ [doneBubble (String.mk (charsOf chunks))] ∧
      (runTurn s chunks).textQueue = [] ∧
      (runTurn s chunks).isLoading = false) := by
  refine ⟨drainQueue_append, ?_, ?_⟩
  · intro chunks
    rw [strFoldlMk chunks ""]
    rfl
  · intro s chunks h0 h1 hne
    obtain ⟨c, cs, hcc⟩ : ∃ c cs, charsOf chunks = c :: cs := by
      cases hc : charsOf chunks with
      | nil => exact absurd hc hne
      | cons c cs => exact ⟨c, cs, rfl⟩
    have hd := runDeltas chunks s h0
    refine ⟨?_, rfl, rfl⟩
    show clearStreaming
        (drainQueue (chunks.foldl handleTextDelta s).messages
          (chunks.foldl handleTextDelta s).textQueue) = _
    rw [hd.2]
    show clearStreaming (chunks.foldl handleTextDelta s).messages = _
    rw [hd.1, hcc, drainQueue_fresh s.messages c cs h1,
      clearStreaming_concat s.messages (streamBubble (String.mk (c :: cs))) rfl]
    rfl

/-- C7 (witness): a concrete two-chunk turn ends with exactly one settled
assistant bubble holding the chunks' concatenation, an empty queue and no
loading. -/
theorem streaming_order_contract_witness :
    (runTurn sampleState ["你好", "！"]).messages =
      sampleState.messages ++ [doneBubble (String.mk (charsOf ["你好", "！"]))] ∧
    (runTurn sampleState ["你好", "！"]).textQueue = [] := by
  have h := streaming_order_contract.2.2 sampleState ["你好", "！"] rfl
    (by intro m hm; simp [sampleState] at hm)
    (by decide)
  exact ⟨h.1, h.2.1⟩

/-- Census of a single appended message. -/
theorem openCards_concat (role : AddressRole) (msgs : List ChatMsg) (m : ChatMsg) :
    openCards role (msgs ++ [m]) =
      openCards role msgs + (if isOpenCard role m = true then 1 else 0) := by
  simp [openCards, List.countP_append, List.countP_cons]

/-- A message whose confirmed flag was possibly just set can only count as an
open card if it already did. -/
theorem isOpenCard_ite (role : AddressRole) (m : ChatMsg) (cond : Prop)
    [Decidable cond] :
    isOpenCard role (if cond then { m with confirmed := true } else m) = true →
    isOpenCard role m = true := by
  by_cases hc : cond
  · rw [if_pos hc]
    intro h
    simp [isOpenCard] at h
  · rw [if_neg hc]
    exact id

/-- Mapping a function that never turns a non-open message into an open card
cannot increase the open-card census. -/
theorem openCards_map_le (role : AddressRole) (msgs : List ChatMsg)
    (f : ChatMsg → ChatMsg)
    (hf : ∀ m, isOpenCard role (f m) = true → isOpenCard role m = true) :
    openCards role (msgs.map f) ≤ openCards role msgs := by
  rw [openCards, List.countP_map, openCards]
  exact List.countP_mono_left (fun m _ h => hf m h)

/-- A map that preserves `msgType` and `addressRole` preserves the total
per-role card census. -/
theorem roleCards_map_preserve (role : AddressRole) (msgs : List ChatMsg)
    (f : ChatMsg → ChatMsg)
    (hf : ∀ m, (f m).msgType = m.msgType ∧ (f m).addressRole = m.addressRole) :
    roleCards role (msgs.map f) = roleCards role msgs := by
  rw [roleCards, List.countP_map, roleCards]
  apply List.countP_congr
  intro m _
  have heq : (((f m).msgType == "address_confirm_card" ||
        (f m).msgType == "address_selection_card") &&
        (f m).addressRole == some role) =
      (((m.msgType == "address_confirm_card" ||
        m.msgType == "address_selection_card") &&
        m.addressRole == some role)) := by
    rw [(hf m).1, (hf m).2]
  simp only [Function.comp_apply]
  rw [heq]

/-- Typing characters never changes the open-card census. -/
theorem openCards_appendChar (role : AddressRole) (msgs : List ChatMsg) (c : Char) :
    openCards role (appendChar msgs c) = openCards role msgs := by
  rcases hL : msgs.getLast? with _ | last
  · simp only [appendChar, hL]
    rw [openCards_concat]
    rfl
  · simp only [appendChar, hL]
    by_cases hb : last.role = "assistant" ∧ last.streaming = true
    · rw [if_pos hb]
      obtain ⟨ms, rfl⟩ := List.getLast?_eq_some_iff.mp hL
      rw [List.dropLast_concat, openCards_concat, openCards_concat]
      rfl
    · rw [if_neg hb, openCards_concat]
      rfl

/-- Draining the typing queue never changes the open-card census. -/
theorem openCards_drainQueue (role : AddressRole) (q : List Char) :
    ∀ msgs, openCards role (drainQueue msgs q) = openCards role msgs := by
  induction q with
  | nil => intro msgs; rfl
  | cons c q ih =>
    intro msgs
    show openCards role (drainQueue (appendChar msgs c) q) = _
    rw [ih (appendChar msgs c), openCards_appendChar]

/-- Clearing the streaming flag never changes the open-card census. -/
theorem openCards_clearStreaming (role : AddressRole) (msgs : List ChatMsg) :
    openCards role (clearStreaming msgs) = openCards role msgs := by
  rcases hL : msgs.getLast? with _ | last
  · simp only [clearStreaming, hL]
  · simp only [clearStreaming, hL]
    by_cases hb : last.streaming = true
    · rw [if_pos hb]
      obtain ⟨ms, rfl⟩ := List.getLast?_eq_some_iff.mp hL
      rw [List.dropLast_concat, openCards_concat, openCards_concat]
      rfl
    · rw [if_neg hb]

/-- A history replacement leaves no address cards at all. -/
theorem openCards_history (role : AddressRole) (s : AppState)
    (entries : List (String × String)) :
    openCards role ((handleMessageHistory s entries).messages) = 0 := by
  show openCards role (entries.map _) = 0
  rw [openCards, List.countP_eq_zero]
  intro m hm
  obtain ⟨e, _, rfl⟩ := List.mem_map.mp hm
  simp [isOpenCard]

/-- Setting the added marker does not touch the messages. -/
theorem withAdded_messages (s : AppState) (role : AddressRole) :
    (withAdded s role).messages = s.messages := by
  cases role <;> rfl

/-- Setting the added marker sets it. -/
theorem withAdded_added_self (s : AppState) (role : AddressRole) :
    (withAdded s role).added role = true := by
  cases role <;> rfl

/-- Setting one role's marker leaves the other role's marker alone. -/
theorem withAdded_added_other (s : AppState) (role role' : AddressRole)
    (h : role' ≠ role) : (withAdded s role).added role' = s.added role' := by
  cases role <;> cases role' <;> first | exact absurd rfl h | rfl

/-- The embedded card counts as an open card for its own role. -/
theorem isOpenCard_addressCardMsg (role : AddressRole) (uiType : String) :
    isOpenCard role (addressCardMsg uiType role) = true := by
  by_cases h : uiType = "address_confirm"
  · simp [isOpenCard, addressCardMsg, cardMsgType, h]
  · simp [isOpenCard, addressCardMsg, cardMsgType, h]

/-- The embedded card does not count for the other role. -/
theorem isOpenCard_addressCardMsg_other (role role' : AddressRole)
    (uiType : String) (h : role' ≠ role) :
    isOpenCard role' (addressCardMsg uiType role) = false := by
  cases role <;> cases role' <;>
    first
      | exact absurd rfl h
      | simp [isOpenCard, addressCardMsg]

/-- The `METADATA` address-card branch preserves the per-role card bound. -/
theorem cardInv_handleAddressCard (s : AppState) (uiType : String)
    (role : AddressRole) (fs : FieldsStatus) (h : cardInv s) :
    cardInv (handleAddressCard s uiType role fs) := by
  simp only [handleAddressCard]
  by_cases h1 : s.added role = false ∧ isAlreadyConfirmed fs role = false ∧
      s.isVerifyingAddress = false
  · rw [if_pos h1]
    intro role'
    show openCards role' ((withAdded s role).messages ++ [addressCardMsg uiType role]) ≤ _
    by_cases hr : role' = role
    · subst hr
      have hb := h role'
      rw [h1.1] at hb
      simp only [Bool.false_eq_true, if_false, Nat.le_zero] at hb
      rw [withAdded_messages, openCards_concat, isOpenCard_addressCardMsg, hb]
      cases role' <;> simp [AppState.added, withAdded]
    · have hb := h role'
      rw [withAdded_messages, openCards_concat,
        isOpenCard_addressCardMsg_other role role' uiType hr]
      cases role <;> cases role' <;>
        first
          | exact absurd rfl hr
          | simpa [AppState.added, withAdded] using hb
  · rw [if_neg h1]
    by_cases h2 : s.added role = true ∧ isAlreadyConfirmed fs role = true
    · rw [if_pos h2]
      intro role'
      show openCards role' (markAddressCards role s.messages) ≤ _
      have hle : openCards role' (markAddressCards role s.messages) ≤
          openCards role' s.messages :=
        openCards_map_le role' s.messages _
          (fun m => isOpenCard_ite role' m _)
      exact le_trans hle (h role')
    · rw [if_neg h2]
      exact h

/-- Every client event preserves the per-role open-card bound. -/
theorem cardInv_step (s : AppState) (e : CardEvent) (h : cardInv s) :
    cardInv (cardStep s e) := by
  cases e with
  | metadataCard uiType role fs => exact cardInv_handleAddressCard s uiType role fs h
  | userSend c =>
    show cardInv (sendMessage s (some c)).1
    by_cases hg : jsTrim c = "" ∨ s.wsPresent = false ∨ s.isConnected = false
    · simp only [sendMessage, if_pos hg]
      exact h
    · simp only [sendMessage, if_neg hg]
      by_cases ha : (addItemKeywords.any fun kw => strIncludes c kw) = true ∧
          s.currentPhase = 4
      · rw [if_pos ha]
        intro role
        cases role with
        | fromAddr => simpa [AppState.added] using h AddressRole.fromAddr
        | toAddr => simpa [AppState.added] using h AddressRole.toAddr
      · rw [if_neg ha]
        intro role
        show openCards role (s.messages ++ [userMsg c]) ≤ _
        rw [openCards_concat]
        have h0 : isOpenCard role (userMsg c) = false := by cases role <;> rfl
        rw [h0]
        cases role with
        | fromAddr => simpa [AppState.added] using h AddressRole.fromAddr
        | toAddr => simpa [AppState.added] using h AddressRole.toAddr
  | textDelta c =>
    intro role
    show openCards role (drainQueue s.messages (s.textQueue ++ c.toList)) ≤ _
    rw [openCards_drainQueue]
    cases role with
    | fromAddr => simpa [AppState.added] using h AddressRole.fromAddr
    | toAddr => simpa [AppState.added] using h AddressRole.toAddr
  | textDone =>
    intro role
    show openCards role (clearStreaming (drainQueue s.messages s.textQueue)) ≤ _
    rw [openCards_clearStreaming, openCards_drainQueue]
    cases role with
    | fromAddr => simpa [AppState.added] using h AddressRole.fromAddr
    | toAddr => simpa [AppState.added] using h AddressRole.toAddr
  | confirmBatch =>
    intro role
    show openCards role (s.messages ++
      [{ role := "assistant", msgType := "items_card", content := "",
         addressRole := none, confirmed := true, streaming := false }]) ≤ _
    rw [openCards_concat]
    have h0 : isOpenCard role
        { role := "assistant", msgType := "items_card", content := "",
          addressRole := none, confirmed := true, streaming := false } = false := by
      cases role <;> rfl
    rw [h0]
    cases role with
    | fromAddr => simpa [AppState.added] using h AddressRole.fromAddr
    | toAddr => simpa [AppState.added] using h AddressRole.toAddr
  | selectAddr role addr =>
    intro role'
    show openCards role' (s.messages.map _) ≤ _
    refine le_trans (openCards_map_le role' s.messages _
      (fun m => isOpenCard_ite role' m _)) ?_
    cases role' with
    | fromAddr => simpa [AppState.added] using h AddressRole.fromAddr
    | toAddr => simpa [AppState.added] using h AddressRole.toAddr
  | clientConfirmAddr role b =>
    cases b with
    | false =>
      intro role'
      show openCards role' s.messages ≤ _
      cases role' with
      | fromAddr => simpa [AppState.added] using h AddressRole.fromAddr
      | toAddr => simpa [AppState.added] using h AddressRole.toAddr
    | true =>
      intro role'
      show openCards role' (s.messages.map _) ≤ _
      refine le_trans (openCards_map_le role' s.messages _
        (fun m => isOpenCard_ite role' m _)) ?_
      cases role' with
      | fromAddr => simpa [AppState.added] using h AddressRole.fromAddr
      | toAddr => simpa [AppState.added] using h AddressRole.toAddr
  | serverConfirmAddr role =>
    intro role'
    show openCards role' (markAddressCards role s.messages) ≤ _
    refine le_trans (openCards_map_le role' s.messages _
      (fun m => isOpenCard_ite role' m _)) ?_
    cases role' with
    | fromAddr => simpa [AppState.added] using h AddressRole.fromAddr
    | toAddr => simpa [AppState.added] using h AddressRole.toAddr
  | history entries =>
    intro role
    show openCards role (handleMessageHistory s entries).messages ≤ _
    rw [openCards_history role s entries]
    exact Nat.zero_le _
  | resetEvt tok =>
    intro role
    show openCards role ([] : List ChatMsg) ≤ _
    exact Nat.zero_le _

/-- The bound is preserved along any event sequence. -/
theorem cardInv_run (evs : List CardEvent) :
    ∀ s : AppState, cardInv s → cardInv (runCards s evs) := by
  induction evs with
  | nil => intro s h; exact h
  | cons e evs ih =>
    intro s h
    exact ih (cardStep s e) (cardInv_step s e h)

/-- Right after a reset the bound holds. -/
theorem cardInv_reset (s : AppState) : cardInv (resetState s) := by
  intro role
  show openCards role ([] : List ChatMsg) ≤ _
  exact Nat.zero_le _

/-- C6: a new submit while an address sub-flow instance is non-idle is
rejected as "sub-flow busy" with the state unchanged; on the client, along
any event sequence following a reset there is at most one unconfirmed
address verification card per role, and once a role's card marker is set a
further `METADATA` card emission for that role appends no second card. -/
theorem subflow_busy_and_card_dedup :
    (∀ (s : SubflowState) (t : String), s ≠ SubflowState.idle →
      subflowSubmit s t = (s, some SubflowError.subflowBusy)) ∧
    (∀ (s : AppState) (evs : List CardEvent) (role : AddressRole),
      openCards role (runCards (resetState s) evs).messages ≤ 1) ∧
    (∀ (s : AppState) (uiType : String) (role : AddressRole) (fs : FieldsStatus),
      s.added role = true →
      roleCards role (handleAddressCard s uiType role fs).messages =
        roleCards role s.messages) := by
  refine ⟨?_, ?_, ?_⟩
  · intro s t h
    cases s with
    | idle => exact absurd rfl h
    | resolving r => rfl
    | disambiguating cs => rfl
    | confirming c => rfl
    | confirmedAddr c => rfl
  · intro s evs role
    have hinv := cardInv_run evs (resetState s) (cardInv_reset s)
    have hb := hinv role
    refine le_trans hb ?_
    by_cases hx : (runCards (resetState s) evs).added role = true
    · rw [if_pos hx]
    · rw [if_neg hx]
      exact Nat.zero_le 1
  · intro s uiType role fs h
    simp only [handleAddressCard]
    rw [if_neg (by
      intro hcon
      rw [h] at hcon
      exact absurd hcon.1 (by simp))]
    by_cases h2 : s.added role = true ∧ isAlreadyConfirmed fs role = true
    · rw [if_pos h2]
      show roleCards role (markAddressCards role s.messages) = _
      apply roleCards_map_preserve
      intro m
      by_cases hc : (m.msgType = "address_confirm_card" ∨
          m.msgType = "address_selection_card") ∧ m.addressRole = some role
      · constructor <;> rw [if_pos hc]
      · constructor <;> rw [if_neg hc]
    · rw [if_neg h2]

/-- C6 (witness): a concrete busy rejection, and a concrete duplicate
emission adding no card. -/
theorem subflow_busy_and_card_dedup_witness :
    subflowSubmit (SubflowState.confirming candA) "東京" =
      (SubflowState.confirming candA, some SubflowError.subflowBusy) ∧
    roleCards AddressRole.fromAddr
        (handleAddressCard { sampleState with addedFrom := true }
          "address_confirm" AddressRole.fromAddr []).messages =
      roleCards AddressRole.fromAddr
        ({ sampleState with addedFrom := true } : AppState).messages :=
  ⟨subflow_busy_and_card_dedup.1 (SubflowState.confirming candA) "東京"
      (by intro hh; cases hh),
   subflow_busy_and_card_dedup.2.2 { sampleState with addedFrom := true }
      "address_confirm" AddressRole.fromAddr [] rfl⟩
